import Mathlib

/-!
# plhm: acquisition and relay core (src/plhm.c)

A shallow embedding of `src/plhm.c` and theorems about it.

Conventions of the embedding.

* The build embedded is the one with `HAVE_LIBLO` defined and
  `HAVE_LIBMAPPER` undefined.  `mapper_flag` is kept as an option flag because
  the acquisition loop of `main` tests it in both builds.
* C strings are lists of characters.  The fixed-size buffers of the source
  (`url[256]`, `path[30]`, `port_s[30]`) are not modelled: `sprintf` is
  concatenation, which is what the C code computes whenever the text fits.
* C `int` flags used as truth values (`started`, `device_found`, `data_good`,
  the option flags) are `Bool`.
* A C `float` is represented by its 32-bit pattern, a natural number; the
  `double` `curtime` is represented by the `timeval` it is computed from.
* Library code that is not part of the file (liblo, libplhm, printf of
  floating-point values, the constants of `plhm.h`, the byte order of the
  host) is a parameter, collected in `Platform`.
* Effects (text printed, log file contents, messages sent, addresses freed,
  device calls) are appended to lists held in the `World`.
* Time is not modelled: `sleep`, `usleep` and `mdev_poll` are skipped, and so
  is the global `starttime`, which is written and never read.
* `main` is a step relation on program points, one step from a call into
  libplhm to the next; the liblo server thread and the signal handler are
  events that run between two steps of `main`.
-/

namespace Plhm

/-- A C string: the characters before the terminating NUL. -/
abbrev CString := List Char

/-- A C `float`, given by its 32-bit pattern. -/
abbrev CFloat := Nat

/-- The handle type `lo_address` of liblo. -/
abbrev lo_address := Nat

/-- The `struct timeval` of the C library. -/
structure timeval where
  tv_sec : Int
  tv_usec : Int
deriving DecidableEq, Repr

/-- Byte order of the host: which byte of a 32-bit object is at offset 0. -/
inductive Endian where
  | little
  | big
deriving DecidableEq, Repr

/-- What `plhm.c` takes from outside the file. -/
structure Platform where
  /-- liblo: an address from a URL, or null. -/
  lo_address_new_from_url : CString → Option lo_address
  /-- liblo: an address from a host and a port, or null. -/
  lo_address_new : CString → CString → Option lo_address
  /-- The text printf writes for a float under the format `%.4f`. -/
  fmt_4f : CFloat → CString
  /-- The text printf writes under `%f` for the double
  `tv_sec * 1000.0 + tv_usec / 1000.0` of a timeval. -/
  fmt_f : timeval → CString
  /-- The constant of plhm.h. -/
  PLHM_DATA_POSITION : Nat
  /-- The constant of plhm.h. -/
  PLHM_DATA_EULER : Nat
  /-- The constant of plhm.h. -/
  PLHM_DATA_TIMESTAMP : Nat
  /-- The constant of plhm.h. -/
  PLHM_UNKNOWN : Nat
  /-- The byte order of the host. -/
  endian : Endian

/-- The fields of `plhm_record_t` (plhm.h) that `plhm.c` reads. -/
structure plhm_record_t where
  station : Int
  fields : Nat
  position : Fin 3 → CFloat
  euler : Fin 3 → CFloat
  timestamp : Nat
  readtime : timeval

/-- The fields of `plhm_t` (plhm.h) that `plhm.c` reads. -/
structure plhm_t where
  device_open : Bool
  stations : Nat
  device_type : Nat
deriving DecidableEq, Repr

/-- The argument of one `lo_send` call. -/
inductive OscArg where
  /-- A float sent under type `f`. -/
  | f (x : CFloat)
  /-- The double `curtime`, sent under type `f`. -/
  | f_curtime (t : timeval)
  /-- An integer sent under type `i`. -/
  | i (n : Int)
  /-- A string sent under type `s`. -/
  | s (text : CString)
deriving DecidableEq, Repr

/-- One `lo_send(dest, path, types, arg)` call. -/
structure OscMessage where
  dest : lo_address
  path : CString
  types : CString
  arg : OscArg
deriving DecidableEq, Repr

/-- The calls into libplhm made by `main` and `read_stations_and_send`. -/
inductive DeviceCall where
  | find_device
  | open_device
  | close_device
  | data_request
  | data_request_continuous
  | read_until_timeout
  | reset
  | text_mode
  | binary_mode
  | get_version
  | read_bits
  | get_stations
  | set_hemisphere
  | set_units
  | set_rate
  | set_data_fields
  | read_data_record
deriving DecidableEq, Repr

/-- The option flags of `plhm.c` and `poll_period`, fixed once the command
line has been read. -/
structure Config where
  daemon_flag : Bool
  hex_flag : Bool
  euler_flag : Bool
  position_flag : Bool
  timestamp_flag : Bool
  reset_flag : Bool
  mapper_flag : Bool
  poll_period : Int
  device_name : CString
deriving DecidableEq, Repr

/-- The global variables of `plhm.c`, the `plhm_t` that `main` owns, and the
effects performed so far. -/
structure World where
  /-- Global `started`. -/
  started : Bool
  /-- Global `device_found`. -/
  device_found : Bool
  /-- Global `data_good`. -/
  data_good : Bool
  /-- Global `addr`; `none` is the null pointer. -/
  addr : Option lo_address
  /-- The `plhm_t pol` of `main`. -/
  pol : plhm_t
  /-- Global `curtime`, as the timeval it was computed from. -/
  curtime : timeval
  /-- Global `prev`. -/
  prev : timeval
  /-- The `static int c` of `read_stations_and_send`. -/
  c : Int
  /-- Global `outfile`: `none` is the null pointer, otherwise the text
  written to the file so far. -/
  outfile : Option CString
  /-- Text written to stdout by printf, one entry per call. -/
  stdout : List CString
  /-- The `diff` of each update-frequency line written to stderr. -/
  stderr : List timeval
  /-- Addresses released by `lo_address_free`, in order. -/
  freed : List lo_address
  /-- Messages sent by `lo_send`, in order. -/
  sent : List OscMessage
  /-- Calls into libplhm, in order. -/
  calls : List DeviceCall

/-- The text printf writes for an `int` under `%d`. -/
def fmt_d (n : Int) : CString := (toString n).toList

/-- The text printf writes for an `unsigned int` under `%u`. -/
def fmt_u (n : Nat) : CString := (toString n).toList

/-! ## Command channel -/

/-- The two argument shapes under which `start_handler` and `status_handler`
are registered: `"i"` (argc = 1) and `"si"` (argc = 2). -/
inductive CmdArgs where
  /-- Type string `i`: `argv[0]->i` is the port. -/
  | port (p : Int)
  /-- Type string `si`: `argv[0]->s` is the host, `argv[1]->i` the port. -/
  | host_port (h : CString) (p : Int)
deriving DecidableEq, Repr

/-- The status string `send_status` assigns to its local `status`
(plhm.c lines 656-667). -/
def send_status_string (w : World) : CString :=
  if w.started then
    let status := "sending".toList
    if !w.device_found then
      "device_not_found".toList
    else if !w.pol.device_open then
      "device_found_but_not_open".toList
    else if !w.data_good then
      "data_stream_error".toList
    else
      status
  else
    "waiting".toList

/-- The function `send_status` (plhm.c lines 651-675). -/
def send_status (X : Platform) (w : World) (hostname : CString) (port : Int) : World :=
  let status := send_status_string w
  let port_s := fmt_d port
  match X.lo_address_new hostname port_s with
  | some t =>
    { w with
      sent := w.sent ++ [⟨t, "/liberty/status".toList, "s".toList, OscArg.s status⟩],
      freed := w.freed ++ [t] }
  | none => w

/-- The function `status_handler` (plhm.c lines 677-696); `source` is the host
name of the sender, `lo_address_get_hostname(lo_message_get_source(data))`.
The handler returns 0. -/
def status_handler (X : Platform) (w : World) (args : CmdArgs) (source : CString) :
    Int × World :=
  match args with
  | CmdArgs.port p => (0, send_status X w source p)
  | CmdArgs.host_port h p => (0, send_status X w h p)

/-- The host name and port `start_handler` computes from its arguments
(plhm.c lines 615-630).  For argc = 1 the host is the sender's, advanced by 7
characters when it begins with two colons (reading past the end of a shorter
name is undefined in C; the embedding yields the empty string). -/
def start_host_port (args : CmdArgs) (source : CString) : CString × Int :=
  match args with
  | CmdArgs.port p =>
    let hostname := source
    let hostname :=
      if hostname.getD 0 '\x00' == ':' && hostname.getD 1 '\x00' == ':' then
        hostname.drop 7
      else hostname
    (hostname, p)
  | CmdArgs.host_port h p => (h, p)

/-- The URL `start_handler` builds:
`sprintf(url, "osc.udp://%s:%d", hostname, port)` (plhm.c lines 632-633). -/
def start_url (args : CmdArgs) (source : CString) : CString :=
  let hp := start_host_port args source
  "osc.udp://".toList ++ hp.1 ++ ":".toList ++ fmt_d hp.2

/-- The function `start_handler` (plhm.c lines 608-641); `source` is the host
name of the sender.  The handler returns 0. -/
def start_handler (X : Platform) (w : World) (args : CmdArgs) (source : CString) :
    Int × World :=
  let w := { w with started := false }
  let url := start_url args source
  let a := X.lo_address_new_from_url url
  let w :=
    match a, w.addr with
    | some _, some old => { w with freed := w.freed ++ [old] }
    | _, _ => w
  let w := { w with addr := a }
  let w := { w with stdout := w.stdout ++ ["starting... ".toList ++ url ++ "\n".toList] }
  let w := { w with started := true }
  (0, w)

/-- The function `stop_handler` (plhm.c lines 643-649).  It returns 0. -/
def stop_handler (w : World) : Int × World :=
  let w := { w with stdout := w.stdout ++ ["stopping..\n".toList] }
  let w := { w with started := false }
  (0, w)

/-- The Run State of the specification, read off the globals: running,
deviceFound, deviceOpen, dataGood, remoteAddress. -/
def run_state (w : World) : Bool × Bool × Bool × Bool × Option lo_address :=
  (w.started, w.device_found, w.pol.device_open, w.data_good, w.addr)

/-! ## Fan-out engine -/

/-- The function `timeval_subtract` (plhm.c lines 431-442): the value returned
and the timeval stored in `result`. -/
def timeval_subtract (x y : timeval) : Int × timeval :=
  let result : timeval := ⟨x.tv_sec - y.tv_sec, x.tv_usec - y.tv_usec⟩
  (if x.tv_sec < y.tv_sec then 1 else 0, result)

/-- The macro `LOG` (plhm.c line 79): fprintf to `outfile` when it is set. -/
def LOG (w : World) (text : CString) : World :=
  match w.outfile with
  | some written => { w with outfile := some (written ++ text) }
  | none => w

/-- The byte `p.uc[i]` of a float in memory, for i = 0..3, as `log_float`
reads it through the union `multiptr` (plhm.c lines 67-75): on a little-endian
host offset 0 holds the least significant byte of the pattern, on a
big-endian host the most significant. -/
def float_byte (e : Endian) (f : CFloat) (i : Nat) : Nat :=
  match e with
  | Endian.little => f / 256 ^ i % 256
  | Endian.big => f / 256 ^ (3 - i) % 256

/-- The text printf writes for an unsigned value under `%02x`: lower-case
hexadecimal, padded with zeros to two digits. -/
def fmt_02x (n : Nat) : CString :=
  let ds := Nat.toDigits 16 n
  List.replicate (2 - ds.length) '0' ++ ds

/-- The function `log_float` (plhm.c lines 444-456). -/
def log_float (X : Platform) (cfg : Config) (w : World) (f : CFloat) : World :=
  if cfg.hex_flag then
    LOG w (", 0x".toList
      ++ fmt_02x (float_byte X.endian f 0 &&& 0xFF)
      ++ fmt_02x (float_byte X.endian f 1 &&& 0xFF)
      ++ fmt_02x (float_byte X.endian f 2 &&& 0xFF)
      ++ fmt_02x (float_byte X.endian f 3 &&& 0xFF))
  else
    LOG w (", ".toList ++ X.fmt_4f f)

/-- The log statements of the station loop of `read_stations_and_send` for one
record (plhm.c lines 488-510). -/
def log_record (X : Platform) (cfg : Config) (w : World) (rec : plhm_record_t) : World :=
  let w := { w with curtime := rec.readtime }
  let w := LOG w (fmt_d rec.station)
  let w :=
    if rec.fields &&& X.PLHM_DATA_POSITION ≠ 0 then
      let w := log_float X cfg w (rec.position 0)
      let w := log_float X cfg w (rec.position 1)
      log_float X cfg w (rec.position 2)
    else w
  let w :=
    if rec.fields &&& X.PLHM_DATA_EULER ≠ 0 then
      let w := log_float X cfg w (rec.euler 0)
      let w := log_float X cfg w (rec.euler 1)
      log_float X cfg w (rec.euler 2)
    else w
  let w :=
    if rec.fields &&& X.PLHM_DATA_TIMESTAMP ≠ 0 then
      LOG w (", ".toList ++ fmt_u rec.timestamp)
    else w
  LOG w (", ".toList ++ X.fmt_f w.curtime ++ "\n".toList)

/-- An `unsigned int` passed where liblo reads an `int32`: the value modulo
2^32, taken as a two's-complement number. -/
def int_of_unsigned (n : Nat) : Int :=
  if n % 2 ^ 32 < 2 ^ 31 then (n % 2 ^ 32 : Nat) else (n % 2 ^ 32 : Nat) - 2 ^ 32

/-- One `sprintf(path, "/liberty/marker/%d/<name>", rec.station)`. -/
def marker_path (station : Int) (name : CString) : CString :=
  "/liberty/marker/".toList ++ fmt_d station ++ "/".toList ++ name

/-- One `lo_send(addr, path, types, arg)` to the address `a`. -/
def lo_send (w : World) (a : lo_address) (path types : CString) (arg : OscArg) : World :=
  { w with sent := w.sent ++ [⟨a, path, types, arg⟩] }

/-- The liblo block of the station loop of `read_stations_and_send` for one
record, entered with `addr` non-null (plhm.c lines 561-595). -/
def send_record (X : Platform) (w : World) (a : lo_address) (rec : plhm_record_t) : World :=
  let w :=
    if rec.fields &&& X.PLHM_DATA_POSITION ≠ 0 then
      let w := lo_send w a (marker_path rec.station "x".toList) "f".toList (OscArg.f (rec.position 0))
      let w := lo_send w a (marker_path rec.station "y".toList) "f".toList (OscArg.f (rec.position 1))
      lo_send w a (marker_path rec.station "z".toList) "f".toList (OscArg.f (rec.position 2))
    else w
  let w :=
    if rec.fields &&& X.PLHM_DATA_EULER ≠ 0 then
      let w := lo_send w a (marker_path rec.station "azimuth".toList) "f".toList
        (OscArg.f (rec.euler 0))
      let w := lo_send w a (marker_path rec.station "elevation".toList) "f".toList
        (OscArg.f (rec.euler 1))
      lo_send w a (marker_path rec.station "roll".toList) "f".toList (OscArg.f (rec.euler 2))
    else w
  let w :=
    if rec.fields &&& X.PLHM_DATA_TIMESTAMP ≠ 0 then
      lo_send w a (marker_path rec.station "timestamp".toList) "i".toList
        (OscArg.i (int_of_unsigned rec.timestamp))
    else w
  lo_send w a (marker_path rec.station "readtime".toList) "f".toList (OscArg.f_curtime w.curtime)

/-- The body of the station loop of `read_stations_and_send` after a
successful read of `rec` (plhm.c lines 486-595). -/
def station_body (X : Platform) (cfg : Config) (w : World) (rec : plhm_record_t) : World :=
  let w := { w with data_good := true }
  let w := log_record X cfg w rec
  match w.addr with
  | none => w
  | some a => send_record X w a rec

/-- One call into libplhm: recorded in `calls`. -/
def device_call (w : World) (call : DeviceCall) : World :=
  { w with calls := w.calls ++ [call] }

/-- The station loop of `read_stations_and_send` (plhm.c lines 480-598), with
`todo` stations left and `s` the loop variable; `reads s` is what
`plhm_read_data_record` yields in iteration `s`: a record, or `none` for a
nonzero return. -/
def station_loop (X : Platform) (cfg : Config) (reads : Nat → Option plhm_record_t) :
    Nat → Nat → World → Int × World
  | 0, _, w => (0, w)
  | todo + 1, s, w =>
    let w := device_call w DeviceCall.read_data_record
    match reads s with
    | none => (1, { w with data_good := false })
    | some rec => station_loop X cfg reads todo (s + 1) (station_body X cfg w rec)

/-- The frequency monitor at the head of `read_stations_and_send`
(plhm.c lines 460-472); `now` is what `gettimeofday` yields. -/
def frequency_monitor (w : World) (now : timeval) : World :=
  let c := w.c
  let w := { w with c := w.c + 1 }
  if c > 30 then
    let diff := (timeval_subtract now w.prev).2
    let w := { w with prev := now }
    let w := { w with stderr := w.stderr ++ [diff] }
    { w with c := 0 }
  else w

/-- The function `read_stations_and_send` (plhm.c lines 458-599); `now` is
what `gettimeofday` yields and `reads s` the outcome of the read for loop
index `s`. -/
def read_stations_and_send (X : Platform) (cfg : Config) (w : World) (poll : Bool)
    (now : timeval) (reads : Nat → Option plhm_record_t) : Int × World :=
  let w := frequency_monitor w now
  let w := if poll then device_call w DeviceCall.data_request else w
  station_loop X cfg reads w.pol.stations 0 w

/-- What the environment hands to one call of `read_stations_and_send`: the
`poll` argument, the time of day, and the outcome of each read. -/
structure PassInput where
  poll : Bool
  now : timeval
  reads : Nat → Option plhm_record_t

/-- One call of `read_stations_and_send`: the world it leaves. -/
def pass (X : Platform) (cfg : Config) (w : World) (i : PassInput) : World :=
  (read_stations_and_send X cfg w i.poll i.now i.reads).2

/-- Consecutive calls of `read_stations_and_send`, one for each input, in
order. -/
def passes (X : Platform) (cfg : Config) (w : World) (ins : List PassInput) : World :=
  ins.foldl (pass X cfg) w

/-! ## Specification-side definitions -/

/-- The ordered rule table of the specification for the status string: a
condition on (running, deviceFound, deviceOpen, dataGood) and the string it
selects. -/
def status_rule_table : List ((Bool → Bool → Bool → Bool → Bool) × CString) :=
  [ (fun running _ _ _ => running == false, "waiting".toList),
    (fun _ deviceFound _ _ => deviceFound == false, "device_not_found".toList),
    (fun _ _ deviceOpen _ => deviceOpen == false, "device_found_but_not_open".toList),
    (fun _ _ _ dataGood => dataGood == false, "data_stream_error".toList) ]

/-- The string of the first rule of a table that matches, or `dflt`. -/
def first_match (table : List ((Bool → Bool → Bool → Bool → Bool) × CString))
    (dflt : CString) (running deviceFound deviceOpen dataGood : Bool) : CString :=
  match table with
  | [] => dflt
  | (cond, text) :: rest =>
    if cond running deviceFound deviceOpen dataGood then text
    else first_match rest dflt running deviceFound deviceOpen dataGood

/-- Whether a bit of the mask is set in a field bitset: the C test
`fields & mask`. -/
def has_field (fields mask : Nat) : Bool := fields &&& mask != 0

/-- The text of one float in the log, without the separator: `0x` and the
four bytes of the float in memory order, two digits each, or the `%.4f` text. -/
def float_text (X : Platform) (cfg : Config) (f : CFloat) : CString :=
  if cfg.hex_flag then
    "0x".toList ++ fmt_02x (float_byte X.endian f 0) ++ fmt_02x (float_byte X.endian f 1)
      ++ fmt_02x (float_byte X.endian f 2) ++ fmt_02x (float_byte X.endian f 3)
  else X.fmt_4f f

/-- The items of the log line of a record as the specification lists them:
the station id, the position values when the Position bit is set, the euler
values when the Euler bit is set, the timestamp when the Timestamp bit is set,
the read time. -/
def log_items (X : Platform) (cfg : Config) (rec : plhm_record_t) : List CString :=
  [fmt_d rec.station]
    ++ (if has_field rec.fields X.PLHM_DATA_POSITION then
          [float_text X cfg (rec.position 0), float_text X cfg (rec.position 1),
            float_text X cfg (rec.position 2)]
        else [])
    ++ (if has_field rec.fields X.PLHM_DATA_EULER then
          [float_text X cfg (rec.euler 0), float_text X cfg (rec.euler 1),
            float_text X cfg (rec.euler 2)]
        else [])
    ++ (if has_field rec.fields X.PLHM_DATA_TIMESTAMP then [fmt_u rec.timestamp] else [])
    ++ [X.fmt_f rec.readtime]

/-- The value of a hexadecimal digit. -/
def hex_value (ch : Char) : Nat :=
  if '0' ≤ ch ∧ ch ≤ '9' then ch.toNat - '0'.toNat
  else if 'a' ≤ ch ∧ ch ≤ 'f' then ch.toNat - 'a'.toNat + 10
  else if 'A' ≤ ch ∧ ch ≤ 'F' then ch.toNat - 'A'.toNat + 10
  else 0

/-- Whether a character is a hexadecimal digit. -/
def is_hex_digit (ch : Char) : Bool :=
  ('0' ≤ ch ∧ ch ≤ '9') ∨ ('a' ≤ ch ∧ ch ≤ 'f') ∨ ('A' ≤ ch ∧ ch ≤ 'F')

/-- Hexadecimal digits read as one number, most significant digit first: for
8 digits, the 4 bytes they spell read as a big-endian 32-bit word. -/
def parse_hex (digits : CString) : Nat :=
  digits.foldl (fun acc ch => 16 * acc + hex_value ch) 0

/-- The 4 bytes spelled by 8 hexadecimal digits, in reverse order of bytes:
reading the result most significant digit first reads the original as a
little-endian word. -/
def swap_bytes (digits : CString) : CString :=
  match digits with
  | [a0, a1, b0, b1, c0, c1, d0, d1] => [d0, d1, c0, c1, b0, b1, a0, a1]
  | _ => digits

/-- The 8 digits `log_float` writes after `0x` in hex mode. -/
def hex_digits (X : Platform) (f : CFloat) : CString :=
  fmt_02x (float_byte X.endian f 0) ++ fmt_02x (float_byte X.endian f 1)
    ++ fmt_02x (float_byte X.endian f 2) ++ fmt_02x (float_byte X.endian f 3)

/-- The messages of the remote sink for one record as the specification lists
them, to the address `a`: x, y, z when the Position bit is set, azimuth,
elevation, roll when the Euler bit is set, timestamp when the Timestamp bit is
set, and readtime. -/
def remote_messages (X : Platform) (a : lo_address) (rec : plhm_record_t) : List OscMessage :=
  (if has_field rec.fields X.PLHM_DATA_POSITION then
      [⟨a, marker_path rec.station "x".toList, "f".toList, OscArg.f (rec.position 0)⟩,
       ⟨a, marker_path rec.station "y".toList, "f".toList, OscArg.f (rec.position 1)⟩,
       ⟨a, marker_path rec.station "z".toList, "f".toList, OscArg.f (rec.position 2)⟩]
    else [])
  ++ (if has_field rec.fields X.PLHM_DATA_EULER then
      [⟨a, marker_path rec.station "azimuth".toList, "f".toList, OscArg.f (rec.euler 0)⟩,
       ⟨a, marker_path rec.station "elevation".toList, "f".toList, OscArg.f (rec.euler 1)⟩,
       ⟨a, marker_path rec.station "roll".toList, "f".toList, OscArg.f (rec.euler 2)⟩]
    else [])
  ++ (if has_field rec.fields X.PLHM_DATA_TIMESTAMP then
      [⟨a, marker_path rec.station "timestamp".toList, "i".toList,
        OscArg.i (int_of_unsigned rec.timestamp)⟩]
    else [])
  ++ [⟨a, marker_path rec.station "readtime".toList, "f".toList, OscArg.f_curtime rec.readtime⟩]

/-- The head of `read_stations_and_send`, before the station loop: the
frequency monitor and, in poll mode, the data request. -/
def before_station_loop (w : World) (poll : Bool) (now : timeval) : World :=
  let w := frequency_monitor w now
  if poll then device_call w DeviceCall.data_request else w

/-- The world after the records `recs` have been read and distributed, one
after the other, starting from `w`. -/
def distribute_all (X : Platform) (cfg : Config) (recs : List plhm_record_t) (w : World) :
    World :=
  recs.foldl (fun w rec => station_body X cfg (device_call w DeviceCall.read_data_record) rec) w

/-! ## Device session state machine: the acquisition loop of `main` -/

/-- Program points of `main` from its acquisition loop on (plhm.c lines
307-423).  Each names what the next step does. -/
inductive Pc where
  /-- Line 307: the test of the `while`. -/
  | loop_head
  /-- Line 317: `plhm_find_device`. -/
  | find_device
  /-- Line 329: the test whether somebody is listening. -/
  | listen_guard
  /-- Line 332: `plhm_open_device`. -/
  | open_device
  /-- Line 344: `plhm_data_request`. -/
  | data_request
  /-- Line 346: `plhm_read_until_timeout` of the flush loop. -/
  | read_until_timeout
  /-- Line 350: `plhm_reset`. -/
  | reset
  /-- Line 352: `plhm_text_mode`. -/
  | text_mode
  /-- Line 355: `plhm_get_version`. -/
  | get_version
  /-- Line 360: `plhm_read_bits`. -/
  | read_bits
  /-- Line 363: `plhm_get_stations`. -/
  | get_stations
  /-- Line 365: `plhm_set_hemisphere`. -/
  | set_hemisphere
  /-- Line 367: `plhm_set_units`. -/
  | set_units
  /-- Line 369: `plhm_set_rate`. -/
  | set_rate
  /-- Line 371: `plhm_set_data_fields`. -/
  | set_data_fields
  /-- Line 380: `plhm_binary_mode`. -/
  | binary_mode
  /-- Line 383: `plhm_data_request_continuous`. -/
  | data_request_continuous
  /-- Line 386: the test of the streaming loop and one pass of
  `read_stations_and_send`. -/
  | streaming
  /-- Line 392: `plhm_data_request` after streaming. -/
  | stop_request
  /-- Line 394: `plhm_read_until_timeout`. -/
  | drain_1
  /-- Line 395: `plhm_read_until_timeout`. -/
  | drain_2
  /-- Line 396: `plhm_read_until_timeout`. -/
  | drain_3
  /-- Line 398: `plhm_text_mode` after streaming. -/
  | text_mode_after
  /-- Line 400: `plhm_close_device` at the end of the loop body. -/
  | close_device
  /-- Line 406: `plhm_close_device` after the loop, and the clean-up. -/
  | final_close
  /-- Line 422: `main` has returned. -/
  | returned
deriving DecidableEq, Repr

/-- What the environment hands to one step of `main`: the value returned by
the libplhm call of the step, the `plhm_t` as the call left it, and, for a
pass of `read_stations_and_send`, the time of day and the outcome of each
read. -/
structure Answer where
  ret : Int
  pol : plhm_t
  now : timeval
  reads : Nat → Option plhm_record_t

/-- The state of the process while `main` is in or after its acquisition
loop. -/
structure MainState where
  /-- Where `main` is. -/
  pc : Pc
  /-- The globals, `pol`, and the effects so far. -/
  w : World
  /-- The libplhm calls made by `main` itself, each with the value it
  returned, in order. -/
  trace : List (DeviceCall × Int)
  /-- The value `main` returned, once it has. -/
  exit_status : Option Int

/-- One event of the process: `main` advances by one step, or the liblo
server thread runs a handler, or SIGINT is delivered. -/
inductive Input where
  /-- The thread of `main` runs to its next program point. -/
  | device (a : Answer)
  /-- A `/liberty/start` message arrives. -/
  | start (args : CmdArgs) (source : CString)
  /-- A `/liberty/stop` message arrives. -/
  | stop
  /-- A `/liberty/status` message arrives. -/
  | status (args : CmdArgs) (source : CString)
  /-- SIGINT: `ctrlc_handler` runs. -/
  | sigint

/-- The function `ctrlc_handler` (plhm.c lines 96-98). -/
def ctrlc_handler (w : World) : World :=
  { w with started := false }

/-- One `printf` to stdout. -/
def printf (w : World) (text : CString) : World :=
  { w with stdout := w.stdout ++ [text] }

/-- A call into libplhm by `main`: recorded with its return value; the call
may have written to `pol`. -/
def lib_call (s : MainState) (call : DeviceCall) (a : Answer) : MainState :=
  { s with trace := s.trace ++ [(call, a.ret)], w := { s.w with pol := a.pol } }

/-- The macro `CHECKBRK(m, x)` (plhm.c line 78) followed by the code up to
the program point `next`: when `x` is nonzero, the message is printed and
`break` leaves the `while` of line 307, whose exit is line 406. -/
def CHECKBRK (m : CString) (x : Int) (next : Pc) (s : MainState) : MainState :=
  if x ≠ 0 then
    { s with w := printf s.w ("[plhm] error: ".toList ++ m ++ "\n".toList),
             pc := Pc.final_close }
  else { s with pc := next }

/-- One step of the thread of `main` (plhm.c lines 307-423). -/
def main_step (X : Platform) (cfg : Config) (s : MainState) (a : Answer) : MainState :=
  match s.pc with
  | Pc.loop_head =>
    if s.w.started || cfg.daemon_flag || cfg.mapper_flag then { s with pc := Pc.find_device }
    else { s with pc := Pc.final_close }
  | Pc.find_device =>
    let s := lib_call s DeviceCall.find_device a
    if a.ret ≠ 0 then
      if cfg.daemon_flag then
        { s with w := { s.w with device_found := false }, pc := Pc.loop_head }
      else
        { s with w := printf s.w ("[plhm] Could not find device at ".toList
                                    ++ cfg.device_name ++ "\n".toList),
                 pc := Pc.final_close }
    else { s with w := { s.w with device_found := true }, pc := Pc.listen_guard }
  | Pc.listen_guard =>
    if !(s.w.started && (s.w.addr.isSome || s.w.outfile.isSome || cfg.mapper_flag))
        && cfg.daemon_flag then
      { s with pc := Pc.loop_head }
    else { s with pc := Pc.open_device }
  | Pc.open_device =>
    let s := lib_call s DeviceCall.open_device a
    if a.ret ≠ 0 then
      if cfg.daemon_flag then { s with pc := Pc.loop_head }
      else
        { s with w := printf s.w ("[plhm] Could not open device ".toList
                                    ++ cfg.device_name ++ "\n".toList),
                 pc := Pc.final_close }
    else { s with pc := Pc.data_request }
  | Pc.data_request =>
    CHECKBRK "data_request".toList a.ret Pc.read_until_timeout
      (lib_call s DeviceCall.data_request a)
  | Pc.read_until_timeout =>
    let s := lib_call s DeviceCall.read_until_timeout a
    if a.ret = 0 then { s with pc := Pc.read_until_timeout }
    else if cfg.reset_flag then { s with pc := Pc.reset }
    else { s with pc := Pc.text_mode }
  | Pc.reset =>
    { lib_call s DeviceCall.reset a with pc := Pc.text_mode }
  | Pc.text_mode =>
    CHECKBRK "text_mode".toList a.ret Pc.get_version (lib_call s DeviceCall.text_mode a)
  | Pc.get_version =>
    let s := CHECKBRK "get_version".toList a.ret Pc.read_bits
      (lib_call s DeviceCall.get_version a)
    if a.ret = 0 ∧ s.w.pol.device_type = X.PLHM_UNKNOWN then
      { s with w := printf s.w "[plhm] Warning: Device type unknown.\n".toList }
    else s
  | Pc.read_bits =>
    CHECKBRK "read_bits".toList a.ret Pc.get_stations (lib_call s DeviceCall.read_bits a)
  | Pc.get_stations =>
    CHECKBRK "get_stations".toList a.ret Pc.set_hemisphere
      (lib_call s DeviceCall.get_stations a)
  | Pc.set_hemisphere =>
    CHECKBRK "set_hemisphere".toList a.ret Pc.set_units
      (lib_call s DeviceCall.set_hemisphere a)
  | Pc.set_units =>
    CHECKBRK "set_units".toList a.ret Pc.set_rate (lib_call s DeviceCall.set_units a)
  | Pc.set_rate =>
    CHECKBRK "set_rate".toList a.ret Pc.set_data_fields (lib_call s DeviceCall.set_rate a)
  | Pc.set_data_fields =>
    CHECKBRK "set_data_fields".toList a.ret Pc.binary_mode
      (lib_call s DeviceCall.set_data_fields a)
  | Pc.binary_mode =>
    CHECKBRK "binary_mode".toList a.ret
      (if cfg.poll_period = 0 then Pc.data_request_continuous else Pc.streaming)
      (lib_call s DeviceCall.binary_mode a)
  | Pc.data_request_continuous =>
    CHECKBRK "data_request_continuous".toList a.ret Pc.streaming
      (lib_call s DeviceCall.data_request_continuous a)
  | Pc.streaming =>
    if s.w.started then
      let r := read_stations_and_send X cfg s.w (cfg.poll_period != 0) a.now a.reads
      if r.1 = 0 then { s with w := r.2, pc := Pc.streaming }
      else { s with w := r.2, pc := Pc.stop_request }
    else { s with pc := Pc.stop_request }
  | Pc.stop_request =>
    CHECKBRK "data_request".toList a.ret Pc.drain_1 (lib_call s DeviceCall.data_request a)
  | Pc.drain_1 => { lib_call s DeviceCall.read_until_timeout a with pc := Pc.drain_2 }
  | Pc.drain_2 => { lib_call s DeviceCall.read_until_timeout a with pc := Pc.drain_3 }
  | Pc.drain_3 => { lib_call s DeviceCall.read_until_timeout a with pc := Pc.text_mode_after }
  | Pc.text_mode_after =>
    CHECKBRK "text_mode".toList a.ret Pc.close_device (lib_call s DeviceCall.text_mode a)
  | Pc.close_device =>
    let s := lib_call s DeviceCall.close_device a
    if !cfg.daemon_flag then { s with pc := Pc.final_close }
    else { s with pc := Pc.loop_head }
  | Pc.final_close =>
    let s := lib_call s DeviceCall.close_device a
    let w :=
      match s.w.addr with
      | some old => { s.w with freed := s.w.freed ++ [old] }
      | none => s.w
    { s with w := w, pc := Pc.returned, exit_status := some 0 }
  | Pc.returned => s

/-- One event of the process. -/
def step (X : Platform) (cfg : Config) (s : MainState) (i : Input) : MainState :=
  match i with
  | Input.device a => main_step X cfg s a
  | Input.start args source => { s with w := (start_handler X s.w args source).2 }
  | Input.stop => { s with w := (stop_handler s.w).2 }
  | Input.status args source => { s with w := (status_handler X s.w args source).2 }
  | Input.sigint => { s with w := ctrlc_handler s.w }

/-- A run of the process: the events in order. -/
def run (X : Platform) (cfg : Config) (s : MainState) (inputs : List Input) : MainState :=
  inputs.foldl (step X cfg) s

/-- The state in which `main` enters its acquisition loop: `started = 1`
(plhm.c line 303), nothing called yet. -/
def main_init (w : World) : MainState :=
  { pc := Pc.loop_head, w := { w with started := true }, trace := [], exit_status := none }

/-- Whether a device session is open after a trace, and whether no
`plhm_open_device` was called while one was: a successful `plhm_open_device`
(return value 0) opens a session, `plhm_close_device` closes it. -/
def session_step (st : Bool × Bool) (ev : DeviceCall × Int) : Bool × Bool :=
  match ev.1 with
  | DeviceCall.open_device => (ev.2 == 0, st.2 && !st.1)
  | DeviceCall.close_device => (false, st.2)
  | _ => st

/-- The scan of a whole trace by `session_step`, from no session open. -/
def session_scan (trace : List (DeviceCall × Int)) : Bool × Bool :=
  trace.foldl session_step (false, true)

/-- Program points at which no device session is open: before a successful
`plhm_open_device`, and after `main` has returned. -/
def idle_pc (pc : Pc) : Bool :=
  match pc with
  | Pc.loop_head | Pc.find_device | Pc.listen_guard | Pc.open_device | Pc.returned => true
  | _ => false

/-- The invariant of the acquisition loop on device sessions. -/
def session_inv (s : MainState) : Prop :=
  (session_scan s.trace).2 = true ∧ (idle_pc s.pc = true → (session_scan s.trace).1 = false)

/-- The steps of the configuration sequence, all guarded by `CHECKBRK`: flush
request, text mode, get version, read bits, get stations, set hemisphere, set
units, set rate, set data fields, binary mode, continuous request. -/
def is_configuration_step (pc : Pc) : Bool :=
  match pc with
  | Pc.data_request | Pc.text_mode | Pc.get_version | Pc.read_bits | Pc.get_stations
  | Pc.set_hemisphere | Pc.set_units | Pc.set_rate | Pc.set_data_fields | Pc.binary_mode
  | Pc.data_request_continuous => true
  | _ => false

/-- The libplhm call made at a program point, when it makes one. -/
def call_at (pc : Pc) : Option DeviceCall :=
  match pc with
  | Pc.loop_head | Pc.listen_guard | Pc.streaming | Pc.returned => none
  | Pc.find_device => some DeviceCall.find_device
  | Pc.open_device => some DeviceCall.open_device
  | Pc.data_request | Pc.stop_request => some DeviceCall.data_request
  | Pc.read_until_timeout | Pc.drain_1 | Pc.drain_2 | Pc.drain_3 =>
    some DeviceCall.read_until_timeout
  | Pc.reset => some DeviceCall.reset
  | Pc.text_mode | Pc.text_mode_after => some DeviceCall.text_mode
  | Pc.get_version => some DeviceCall.get_version
  | Pc.read_bits => some DeviceCall.read_bits
  | Pc.get_stations => some DeviceCall.get_stations
  | Pc.set_hemisphere => some DeviceCall.set_hemisphere
  | Pc.set_units => some DeviceCall.set_units
  | Pc.set_rate => some DeviceCall.set_rate
  | Pc.set_data_fields => some DeviceCall.set_data_fields
  | Pc.binary_mode => some DeviceCall.binary_mode
  | Pc.data_request_continuous => some DeviceCall.data_request_continuous
  | Pc.close_device | Pc.final_close => some DeviceCall.close_device

/-- Whether an event is one of the handlers rather than a step of `main`. -/
def Input.is_handler (i : Input) : Bool :=
  match i with
  | Input.device _ => false
  | _ => true

/-- A failing step that leaves the loop: the call is recorded, a line is
printed, and `main` is at line 406. -/
def breaks_out (s : MainState) (a : Answer) (s1 : MainState) : Prop :=
  s1.pc = Pc.final_close ∧ s1.exit_status = s.exit_status
    ∧ (∃ c, call_at s.pc = some c ∧ s1.trace = s.trace ++ [(c, a.ret)])
    ∧ (∃ line, s1.w.stdout = s.w.stdout ++ [line])

/-! ## Objects of the examples -/

/-- A world for examples: nothing running, no sink, nothing done yet. -/
def World.idle : World :=
  { started := false, device_found := false, data_good := false, addr := none,
    pol := ⟨false, 0, 0⟩, curtime := ⟨0, 0⟩, prev := ⟨0, 0⟩, c := 0, outfile := none,
    stdout := [], stderr := [], freed := [], sent := [], calls := [] }

/-- A platform for examples: every address resolution fails, floats print as
nothing, the plhm.h bits are 1, 2 and 4, `PLHM_UNKNOWN` is 0, the host is
little-endian. -/
def Platform.unresolved : Platform :=
  { lo_address_new_from_url := fun _ => none,
    lo_address_new := fun _ _ => none,
    fmt_4f := fun _ => [],
    fmt_f := fun _ => [],
    PLHM_DATA_POSITION := 1,
    PLHM_DATA_EULER := 2,
    PLHM_DATA_TIMESTAMP := 4,
    PLHM_UNKNOWN := 0,
    endian := Endian.little }

/-- The world of the examples with a log file open and empty. -/
def World.logging : World := { World.idle with outfile := some [] }

/-- Options of the examples: `-H -P -E -T`, continuous mode, default device. -/
def Config.hex : Config :=
  { daemon_flag := false, hex_flag := true, euler_flag := true, position_flag := true,
    timestamp_flag := true, reset_flag := false, mapper_flag := false, poll_period := 0,
    device_name := "/dev/ttyUSB0".toList }

/-- A record of the examples: station 0, all three fields. -/
def rec_example : plhm_record_t :=
  ⟨0, 7, fun _ => 0x3F800000, fun _ => 0, 5, ⟨10, 500⟩⟩

/-- An answer with the given return value, the device left as it was. -/
def Answer.ret_only (r : Int) : Answer :=
  { ret := r, pol := ⟨false, 0, 0⟩, now := ⟨0, 0⟩, reads := fun _ => none }

/-- Options of the examples with `-D` added. -/
def Config.hex_daemon : Config := { Config.hex with daemon_flag := true }

/-- The state of a run without `-D` that has found the device and is about to
open it. -/
def MainState.before_open : MainState :=
  run Platform.unresolved Config.hex (main_init World.logging)
    [Input.device (Answer.ret_only 0), Input.device (Answer.ret_only 0),
     Input.device (Answer.ret_only 0)]

/-- The state of a run with `-D` that has opened the device, flushed it, and
is about to ask for the stations. -/
def MainState.before_get_stations : MainState :=
  run Platform.unresolved Config.hex_daemon (main_init World.logging)
    [Input.device (Answer.ret_only 0), Input.device (Answer.ret_only 0),
     Input.device (Answer.ret_only 0), Input.device (Answer.ret_only 0),
     Input.device (Answer.ret_only 0), Input.device (Answer.ret_only 1),
     Input.device (Answer.ret_only 0), Input.device (Answer.ret_only 0),
     Input.device (Answer.ret_only 0)]

/-- An input of the examples: no poll, `gettimeofday` yields `t` seconds,
every read fails. -/
def PassInput.at_second (t : Int) : PassInput :=
  { poll := false, now := ⟨t, 0⟩, reads := fun _ => none }

/-- The inputs of the first `n` calls of the examples, one call a second: call
number `k` is made at second `k`. -/
def PassInput.one_a_second (n : Nat) : List PassInput :=
  (List.range n).map (fun k => PassInput.at_second (k + 1))

/-! ## Theorems -/

/-! ### Command channel: the status string (C1) -/

/-- C1. For each of the 16 combinations of (running, deviceFound, deviceOpen,
dataGood), the status string chosen by `send_status` is the one of the first
matching rule of the ordered table (`waiting`, `device_not_found`,
`device_found_but_not_open`, `data_stream_error`), and `sending` when no rule
matches; and when the reply address resolves, `send_status` sends one message
to `/liberty/status` that carries that string. -/
theorem send_status_first_match (X : Platform) (w : World) (hostname : CString) (port : Int) :
    send_status_string w
        = first_match status_rule_table "sending".toList
            w.started w.device_found w.pol.device_open w.data_good
      ∧ ∀ t, X.lo_address_new hostname (fmt_d port) = some t →
          (send_status X w hostname port).sent
            = w.sent ++ [⟨t, "/liberty/status".toList, "s".toList,
                OscArg.s (first_match status_rule_table "sending".toList
                  w.started w.device_found w.pol.device_open w.data_good)⟩] := by
  have h : send_status_string w
      = first_match status_rule_table "sending".toList
          w.started w.device_found w.pol.device_open w.data_good := by
    unfold send_status_string
    cases w.started <;> cases w.device_found <;> cases w.pol.device_open <;>
      cases w.data_good <;> rfl
  refine ⟨h, ?_⟩
  intro t ht
  simp only [send_status, ht, h]

/-! ### Command channel: a start whose address does not resolve (C2) -/

/-- C2, as stated, fails. With no address set and `started` false (after a
stop), a start command whose address resolution fails leaves a Run State that
differs from the one before: `started` has become true. -/
theorem start_handler_failed_changes_run_state :
    Platform.unresolved.lo_address_new_from_url
        (start_url (CmdArgs.host_port "no such host".toList 9000) "10.0.0.1".toList) = none
      ∧ run_state (start_handler Platform.unresolved World.idle
            (CmdArgs.host_port "no such host".toList 9000) "10.0.0.1".toList).2
          ≠ run_state World.idle
      ∧ (start_handler Platform.unresolved World.idle
            (CmdArgs.host_port "no such host".toList 9000) "10.0.0.1".toList).2.started = true
      ∧ World.idle.started = false := by
  decide

/-- C2, amended. For every world and every start command, of either argument
shape, whose address resolution fails (`lo_address_new_from_url` yields null),
`start_handler` releases no address, leaves `device_found`, `data_good` and
`pol` as they were, and returns 0 with `started` true, whatever its previous
value. -/
theorem start_handler_failed_resolution (X : Platform) (w : World) (args : CmdArgs)
    (source : CString)
    (hfail : X.lo_address_new_from_url (start_url args source) = none) :
    (start_handler X w args source).1 = 0
      ∧ (start_handler X w args source).2.started = true
      ∧ (start_handler X w args source).2.freed = w.freed
      ∧ (start_handler X w args source).2.device_found = w.device_found
      ∧ (start_handler X w args source).2.data_good = w.data_good
      ∧ (start_handler X w args source).2.pol = w.pol := by
  simp [start_handler, hfail]

/-- Witness of `start_handler_failed_resolution`: a start with an explicit host
on a platform where no address resolves. -/
theorem start_handler_failed_resolution_witness :
    (start_handler Platform.unresolved World.idle
        (CmdArgs.host_port "no such host".toList 9000) "10.0.0.1".toList).2.started = true :=
  (start_handler_failed_resolution Platform.unresolved World.idle
    (CmdArgs.host_port "no such host".toList 9000) "10.0.0.1".toList rfl).2.1

/-- What `start_handler` does to `addr` when the resolution fails: the global
is overwritten with the null result, and the previous address is not released
(plhm.c lines 634-636). -/
theorem start_handler_failed_overwrites_addr (X : Platform) (w : World) (args : CmdArgs)
    (source : CString)
    (hfail : X.lo_address_new_from_url (start_url args source) = none) :
    (start_handler X w args source).2.addr = none := by
  simp [start_handler, hfail]

/-! ### Fan-out engine: the log line (C3) -/

/-- Masking a byte of a float with `0xFF` leaves it as it is. -/
theorem float_byte_and (e : Endian) (f : CFloat) (i : Nat) :
    float_byte e f i &&& 0xFF = float_byte e f i := by
  have h : float_byte e f i < 2 ^ 8 := by
    cases e <;> simp only [float_byte] <;> omega
  exact Nat.and_pow_two_sub_one_of_lt_two_pow h

/-- The macro `LOG` appends to the log file when there is one. -/
theorem LOG_outfile (w : World) (text : CString) :
    (LOG w text).outfile = w.outfile.map (fun written => written ++ text) := by
  unfold LOG
  cases h : w.outfile <;> simp [h]

/-- The macro `LOG` leaves `curtime` alone. -/
theorem LOG_curtime (w : World) (text : CString) : (LOG w text).curtime = w.curtime := by
  unfold LOG
  cases w.outfile <;> rfl

/-- What `log_float` appends to the log file: the separator and the text of
the float. -/
theorem log_float_outfile (X : Platform) (cfg : Config) (w : World) (f : CFloat) :
    (log_float X cfg w f).outfile
      = w.outfile.map (fun written => written ++ (", ".toList ++ float_text X cfg f)) := by
  unfold log_float float_text
  by_cases hx : cfg.hex_flag = true
  · rw [if_pos hx, if_pos hx, LOG_outfile]
    simp only [float_byte_and, List.append_assoc]
    rfl
  · rw [if_neg hx, if_neg hx, LOG_outfile]

/-- The function `log_float` leaves `curtime` alone. -/
theorem log_float_curtime (X : Platform) (cfg : Config) (w : World) (f : CFloat) :
    (log_float X cfg w f).curtime = w.curtime := by
  unfold log_float
  split <;> exact LOG_curtime _ _

/-- C3. For every record and every field bitset, the log line written by
`read_stations_and_send` is the station id, then the three position values
iff the Position bit is set, then the three euler values iff the Euler bit is
set, then the timestamp iff the Timestamp bit is set, then the read time,
separated by a comma and a blank and ended by a newline; the number of items
is 2 + 3*[Position] + 3*[Euler] + [Timestamp].  Nothing is written when there
is no log file. -/
theorem log_record_line (X : Platform) (cfg : Config) (w : World) (rec : plhm_record_t) :
    (log_record X cfg w rec).outfile
        = w.outfile.map (fun written =>
            written ++ ", ".toList.intercalate (log_items X cfg rec) ++ "\n".toList)
      ∧ (log_items X cfg rec).length
        = 2 + 3 * (if has_field rec.fields X.PLHM_DATA_POSITION then 1 else 0)
            + 3 * (if has_field rec.fields X.PLHM_DATA_EULER then 1 else 0)
            + (if has_field rec.fields X.PLHM_DATA_TIMESTAMP then 1 else 0) := by
  constructor
  · simp only [log_record, log_items, has_field, bne_iff_ne, ne_eq]
    split_ifs <;>
    simp only [LOG_outfile, log_float_outfile, LOG_curtime, log_float_curtime] <;>
    cases w.outfile <;>
    simp [List.intercalate]
  · unfold log_items
    by_cases hp : has_field rec.fields X.PLHM_DATA_POSITION = true <;>
    by_cases he : has_field rec.fields X.PLHM_DATA_EULER = true <;>
    by_cases ht : has_field rec.fields X.PLHM_DATA_TIMESTAMP = true <;>
    simp [hp, he, ht]

/-! ### Fan-out engine: floats in hexadecimal (C4) -/

/-- A byte under `%02x` is two hexadecimal digits whose value is the byte. -/
theorem fmt_02x_byte (b : Nat) (hb : b < 256) :
    ∃ hi lo, fmt_02x b = [hi, lo] ∧ is_hex_digit hi = true ∧ is_hex_digit lo = true
      ∧ 16 * hex_value hi + hex_value lo = b := by
  interval_cases b <;> exact ⟨_, _, rfl, rfl, rfl, rfl⟩

/-- A byte of a float is below 256. -/
theorem float_byte_lt (e : Endian) (f : CFloat) (i : Nat) : float_byte e f i < 256 := by
  cases e <;> simp only [float_byte] <;> omega

/-- A 32-bit word is the sum of its four bytes, each at its weight. -/
theorem word_of_bytes (f : Nat) (hf : f < 4294967296) :
    (f / 16777216 % 256) * 16777216 + (f / 65536 % 256) * 65536 + (f / 256 % 256) * 256
      + f % 256 = f := by
  omega

/-- C4, as stated, fails. On a little-endian host `log_float` in hex mode
writes the float 1.0, of bit pattern 0x3F800000, as `, 0x0000803f`: the least
significant byte comes first, and the 8 digits read back as a big-endian word
give 0x0000803F, not the pattern. -/
theorem log_float_hex_little_endian_host :
    (log_float Platform.unresolved Config.hex World.logging 0x3F800000).outfile
        = some (", 0x".toList ++ "0000803f".toList)
      ∧ parse_hex "0000803f".toList ≠ 0x3F800000 := by
  decide

/-- C4, amended. For every 32-bit float bit pattern, `log_float` in hex mode
writes `, 0x` followed by exactly 8 hexadecimal digits, two per byte, that are
the four bytes of the float in the memory order of the host.  On a big-endian
host they are the big-endian byte pattern, and reading them back as a
big-endian 32-bit word reproduces the pattern; on a little-endian host the
least significant byte comes first, and reading them back as a little-endian
word reproduces the pattern. -/
theorem log_float_hex_host_order (X : Platform) (cfg : Config) (w : World) (f : CFloat)
    (hf : f < 2 ^ 32) (hx : cfg.hex_flag = true) :
    (log_float X cfg w f).outfile
        = w.outfile.map (fun written => written ++ (", 0x".toList ++ hex_digits X f))
      ∧ (hex_digits X f).length = 8
      ∧ (hex_digits X f).all is_hex_digit = true
      ∧ (X.endian = Endian.big → parse_hex (hex_digits X f) = f)
      ∧ (X.endian = Endian.little → parse_hex (swap_bytes (hex_digits X f)) = f) := by
  obtain ⟨a0, a1, ha, ha0, ha1, hav⟩ := fmt_02x_byte _ (float_byte_lt X.endian f 0)
  obtain ⟨b0, b1, hb, hb0, hb1, hbv⟩ := fmt_02x_byte _ (float_byte_lt X.endian f 1)
  obtain ⟨c0, c1, hc, hc0, hc1, hcv⟩ := fmt_02x_byte _ (float_byte_lt X.endian f 2)
  obtain ⟨d0, d1, hd, hd0, hd1, hdv⟩ := fmt_02x_byte _ (float_byte_lt X.endian f 3)
  have hdig : hex_digits X f = [a0, a1, b0, b1, c0, c1, d0, d1] := by
    simp [hex_digits, ha, hb, hc, hd]
  have hsum := word_of_bytes f hf
  refine ⟨?_, ?_, ?_, ?_, ?_⟩
  · rw [log_float, if_pos hx, LOG_outfile]
    simp only [float_byte_and, hex_digits, List.append_assoc]
  · simp [hdig]
  · simp [hdig, ha0, ha1, hb0, hb1, hc0, hc1, hd0, hd1]
  · intro he
    rw [he] at hav hbv hcv hdv
    simp only [float_byte, Nat.reducePow, Nat.reduceSub, Nat.div_one] at hav hbv hcv hdv
    rw [← hav, ← hbv, ← hcv, ← hdv] at hsum
    simp only [hdig, parse_hex, List.foldl]
    omega
  · intro he
    rw [he] at hav hbv hcv hdv
    simp only [float_byte, Nat.reducePow, Nat.reduceSub, Nat.div_one] at hav hbv hcv hdv
    rw [← hav, ← hbv, ← hcv, ← hdv] at hsum
    simp only [hdig, swap_bytes, parse_hex, List.foldl]
    omega

/-- Witness of `log_float_hex_host_order`: the float 1.0 on a little-endian
host. -/
theorem log_float_hex_host_order_witness :
    parse_hex (swap_bytes (hex_digits Platform.unresolved 0x3F800000)) = 0x3F800000 :=
  (log_float_hex_host_order Platform.unresolved Config.hex World.logging 0x3F800000
    (by decide) rfl).2.2.2.2 rfl

/-! ### Fan-out engine: the remote sink (C5) -/

/-- The macro `LOG` changes nothing but the log file. -/
theorem LOG_frame (w : World) (text : CString) :
    (LOG w text).addr = w.addr ∧ (LOG w text).sent = w.sent
      ∧ (LOG w text).data_good = w.data_good ∧ (LOG w text).calls = w.calls := by
  unfold LOG
  cases w.outfile <;> exact ⟨rfl, rfl, rfl, rfl⟩

/-- The function `log_float` changes nothing but the log file. -/
theorem log_float_frame (X : Platform) (cfg : Config) (w : World) (f : CFloat) :
    (log_float X cfg w f).addr = w.addr ∧ (log_float X cfg w f).sent = w.sent
      ∧ (log_float X cfg w f).data_good = w.data_good
      ∧ (log_float X cfg w f).calls = w.calls := by
  unfold log_float
  split <;> exact LOG_frame _ _

/-- The log statements for a record change the log file and set `curtime`
to the read time of the record; the address, the messages sent, `data_good`
and the device calls stay. -/
theorem log_record_frame (X : Platform) (cfg : Config) (w : World) (rec : plhm_record_t) :
    (log_record X cfg w rec).addr = w.addr ∧ (log_record X cfg w rec).sent = w.sent
      ∧ (log_record X cfg w rec).data_good = w.data_good
      ∧ (log_record X cfg w rec).calls = w.calls
      ∧ (log_record X cfg w rec).curtime = rec.readtime := by
  simp only [log_record]
  split_ifs <;>
  simp only [LOG_frame, log_float_frame, LOG_curtime, log_float_curtime, and_self]

/-- The liblo block sends the messages the specification lists, with `curtime`
as the read time. -/
theorem send_record_sent (X : Platform) (w : World) (a : lo_address) (rec : plhm_record_t) :
    (send_record X w a rec).sent
      = w.sent ++ remote_messages X a { rec with readtime := w.curtime } := by
  simp only [send_record, remote_messages, has_field, bne_iff_ne, ne_eq, lo_send]
  split_ifs <;> simp

/-- The liblo block leaves `data_good` and the device calls alone. -/
theorem send_record_frame (X : Platform) (w : World) (a : lo_address) (rec : plhm_record_t) :
    (send_record X w a rec).data_good = w.data_good
      ∧ (send_record X w a rec).calls = w.calls := by
  simp only [send_record, lo_send]
  split_ifs <;> exact ⟨rfl, rfl⟩

/-- C5. For every successfully read record with station id s and field bitset
f, when `addr` is set the remote sink sends exactly `/liberty/marker/s/x`, `/y`,
`/z` (floats) iff Position is in f, then `/azimuth`, `/elevation`, `/roll`
(floats) iff Euler is in f, then `/timestamp` (integer) iff Timestamp is in f,
then `/liberty/marker/s/readtime`, each to `addr` and with one argument; these
are 3*[Position] + 3*[Euler] + [Timestamp] + 1 messages; and nothing is sent
when `addr` is null. -/
theorem station_body_remote_sink (X : Platform) (cfg : Config) (w : World)
    (rec : plhm_record_t) :
    (station_body X cfg w rec).sent
        = w.sent ++ (match w.addr with
            | none => []
            | some a => remote_messages X a rec)
      ∧ (∀ a, (remote_messages X a rec).length
          = 3 * (if has_field rec.fields X.PLHM_DATA_POSITION then 1 else 0)
            + 3 * (if has_field rec.fields X.PLHM_DATA_EULER then 1 else 0)
            + (if has_field rec.fields X.PLHM_DATA_TIMESTAMP then 1 else 0) + 1)
      ∧ (∀ a, ∀ m ∈ remote_messages X a rec, m.dest = a ∧ m.types.length = 1) := by
  refine ⟨?_, ?_, ?_⟩
  · have h1 : (log_record X cfg { w with data_good := true } rec).addr = w.addr :=
      (log_record_frame X cfg _ rec).1
    have h2 : (log_record X cfg { w with data_good := true } rec).sent = w.sent :=
      (log_record_frame X cfg _ rec).2.1
    have h3 : (log_record X cfg { w with data_good := true } rec).curtime = rec.readtime :=
      (log_record_frame X cfg _ rec).2.2.2.2
    simp only [station_body]
    generalize log_record X cfg { w with data_good := true } rec = w2 at h1 h2 h3 ⊢
    rw [h1]
    cases w.addr with
    | none => simpa using h2
    | some a => simp only [send_record_sent, h2, h3]
  · intro a
    unfold remote_messages
    by_cases hp : has_field rec.fields X.PLHM_DATA_POSITION = true <;>
    by_cases he : has_field rec.fields X.PLHM_DATA_EULER = true <;>
    by_cases ht : has_field rec.fields X.PLHM_DATA_TIMESTAMP = true <;>
    simp [hp, he, ht]
  · intro a
    unfold remote_messages
    by_cases hp : has_field rec.fields X.PLHM_DATA_POSITION = true <;>
    by_cases he : has_field rec.fields X.PLHM_DATA_EULER = true <;>
    by_cases ht : has_field rec.fields X.PLHM_DATA_TIMESTAMP = true <;>
    simp [hp, he, ht]

/-! ### Device session state machine: failures (C6, C7) -/

/-- A run over two lists of events is the run over the second from the end of
the run over the first. -/
theorem run_append (X : Platform) (cfg : Config) (s : MainState) (xs ys : List Input) :
    run X cfg s (xs ++ ys) = run X cfg (run X cfg s xs) ys := by
  simp [run, List.foldl_append]

/-- Handlers move neither `main` nor its trace. -/
theorem run_handlers (X : Platform) (cfg : Config) (s : MainState) (hs : List Input)
    (hh : ∀ i ∈ hs, Input.is_handler i = true) :
    (run X cfg s hs).pc = s.pc ∧ (run X cfg s hs).trace = s.trace
      ∧ (run X cfg s hs).exit_status = s.exit_status := by
  induction hs generalizing s with
  | nil => exact ⟨rfl, rfl, rfl⟩
  | cons i rest ih =>
    have hrest := ih (step X cfg s i) (fun j hj => hh j (List.mem_cons_of_mem _ hj))
    have hi := hh i (List.mem_cons_self _ _)
    have hstep : (step X cfg s i).pc = s.pc ∧ (step X cfg s i).trace = s.trace
        ∧ (step X cfg s i).exit_status = s.exit_status := by
      cases i with
      | device a => simp [Input.is_handler] at hi
      | start args source => exact ⟨rfl, rfl, rfl⟩
      | stop => exact ⟨rfl, rfl, rfl⟩
      | status args source => exact ⟨rfl, rfl, rfl⟩
      | sigint => exact ⟨rfl, rfl, rfl⟩
    simp only [run, List.foldl_cons] at hrest ⊢
    rw [hrest.1, hrest.2.1, hrest.2.2]
    exact hstep

/-- Once `main` has returned nothing moves it, and it makes no call. -/
theorem run_returned (X : Platform) (cfg : Config) (s : MainState) (inputs : List Input)
    (hpc : s.pc = Pc.returned) :
    (run X cfg s inputs).pc = Pc.returned ∧ (run X cfg s inputs).trace = s.trace
      ∧ (run X cfg s inputs).exit_status = s.exit_status := by
  induction inputs generalizing s with
  | nil => exact ⟨hpc, rfl, rfl⟩
  | cons i rest ih =>
    have hstep : (step X cfg s i).pc = Pc.returned ∧ (step X cfg s i).trace = s.trace
        ∧ (step X cfg s i).exit_status = s.exit_status := by
      cases i with
      | device a => simp [step, main_step, hpc]
      | start args source => exact ⟨hpc, rfl, rfl⟩
      | stop => exact ⟨hpc, rfl, rfl⟩
      | status args source => exact ⟨hpc, rfl, rfl⟩
      | sigint => exact ⟨hpc, rfl, rfl⟩
    have hrest := ih (step X cfg s i) hstep.1
    simp only [run, List.foldl_cons] at hrest ⊢
    rw [hrest.1, hrest.2.1, hrest.2.2]
    exact ⟨rfl, hstep.2.1, hstep.2.2⟩

/-- A failing step of the configuration sequence breaks out of the loop. -/
theorem main_step_checkbrk (X : Platform) (cfg : Config) (s : MainState) (a : Answer)
    (hpc : is_configuration_step s.pc = true) (hret : a.ret ≠ 0) :
    breaks_out s a (main_step X cfg s a) := by
  unfold breaks_out
  cases h : s.pc <;> simp [h, is_configuration_step] at hpc <;>
    simp [main_step, h, lib_call, CHECKBRK, hret, call_at, printf]

/-- The step at line 406 closes the device and returns 0. -/
theorem main_step_final_close (X : Platform) (cfg : Config) (s : MainState) (a : Answer)
    (hpc : s.pc = Pc.final_close) :
    (main_step X cfg s a).pc = Pc.returned ∧ (main_step X cfg s a).exit_status = some 0
      ∧ (main_step X cfg s a).trace = s.trace ++ [(DeviceCall.close_device, a.ret)] := by
  simp [main_step, hpc, lib_call]

/-- After a step that breaks out of the loop, the next step of `main` closes
the device and returns 0, and nothing follows. -/
theorem run_after_break (X : Platform) (cfg : Config) (s : MainState) (a a2 : Answer)
    (hs : List Input) (rest : List Input)
    (hh : ∀ i ∈ hs, Input.is_handler i = true)
    (hb : breaks_out s a (main_step X cfg s a)) :
    (run X cfg s ([Input.device a] ++ hs ++ [Input.device a2] ++ rest)).pc = Pc.returned
      ∧ (run X cfg s ([Input.device a] ++ hs ++ [Input.device a2] ++ rest)).exit_status
          = some 0
      ∧ ∃ c, call_at s.pc = some c
          ∧ (run X cfg s ([Input.device a] ++ hs ++ [Input.device a2] ++ rest)).trace
              = s.trace ++ [(c, a.ret), (DeviceCall.close_device, a2.ret)] := by
  obtain ⟨hpc1, _, ⟨c, hc, htr⟩, _⟩ := hb
  have h1 : run X cfg s [Input.device a] = main_step X cfg s a := rfl
  have hH := run_handlers X cfg (main_step X cfg s a) hs hh
  have hF := main_step_final_close X cfg (run X cfg (main_step X cfg s a) hs) a2
    (by rw [hH.1, hpc1])
  have h2 : run X cfg (run X cfg (main_step X cfg s a) hs) [Input.device a2]
      = main_step X cfg (run X cfg (main_step X cfg s a) hs) a2 := rfl
  have hR := run_returned X cfg
    (main_step X cfg (run X cfg (main_step X cfg s a) hs) a2) rest hF.1
  rw [run_append, run_append, run_append, h1, h2]
  refine ⟨hR.1, ?_, c, hc, ?_⟩
  · rw [hR.2.2, hF.2.1]
  · rw [hR.2.1, hF.2.2, hH.2.1, htr]
    simp

/-- C6, as stated, fails. Without `-D`, a run of `main` in which
`plhm_find_device` fails calls `plhm_close_device` and returns: the exit
status is 0, not a nonzero value. -/
theorem main_discovery_failure_returns_zero :
    Config.hex.daemon_flag = false
      ∧ (run Platform.unresolved Config.hex (main_init World.logging)
          [Input.device (Answer.ret_only 0), Input.device (Answer.ret_only 1),
           Input.device (Answer.ret_only 0)]).pc = Pc.returned
      ∧ (run Platform.unresolved Config.hex (main_init World.logging)
          [Input.device (Answer.ret_only 0), Input.device (Answer.ret_only 1),
           Input.device (Answer.ret_only 0)]).trace
          = [(DeviceCall.find_device, 1), (DeviceCall.close_device, 0)]
      ∧ (run Platform.unresolved Config.hex (main_init World.logging)
          [Input.device (Answer.ret_only 0), Input.device (Answer.ret_only 1),
           Input.device (Answer.ret_only 0)]).exit_status = some 0
      ∧ ¬ (∃ n, n ≠ 0 ∧ (run Platform.unresolved Config.hex (main_init World.logging)
          [Input.device (Answer.ret_only 0), Input.device (Answer.ret_only 1),
           Input.device (Answer.ret_only 0)]).exit_status = some n) := by
  refine ⟨rfl, rfl, rfl, rfl, ?_⟩
  rintro ⟨n, hn, h⟩
  have h0 : (run Platform.unresolved Config.hex (main_init World.logging)
          [Input.device (Answer.ret_only 0), Input.device (Answer.ret_only 1),
           Input.device (Answer.ret_only 0)]).exit_status = some 0 := rfl
  rw [h0] at h
  exact hn (Option.some.inj h).symm

/-- C6, amended. Without `-D`, when `plhm_find_device`, `plhm_open_device` or
a step of the configuration sequence fails, `main` prints one line, leaves
the acquisition loop, calls `plhm_close_device` and returns: the process
terminates with exit status 0, having made no other libplhm call, whichever
handlers run in between and whatever comes after. -/
theorem main_failure_without_daemon (X : Platform) (cfg : Config) (s : MainState)
    (a a2 : Answer) (hs rest : List Input)
    (hnd : cfg.daemon_flag = false)
    (hpc : s.pc = Pc.find_device ∨ s.pc = Pc.open_device ∨ is_configuration_step s.pc = true)
    (hret : a.ret ≠ 0)
    (hh : ∀ i ∈ hs, Input.is_handler i = true) :
    (∃ line, (main_step X cfg s a).w.stdout = s.w.stdout ++ [line])
      ∧ (run X cfg s ([Input.device a] ++ hs ++ [Input.device a2] ++ rest)).pc = Pc.returned
      ∧ (run X cfg s ([Input.device a] ++ hs ++ [Input.device a2] ++ rest)).exit_status
          = some 0
      ∧ ∃ c, call_at s.pc = some c
          ∧ (run X cfg s ([Input.device a] ++ hs ++ [Input.device a2] ++ rest)).trace
              = s.trace ++ [(c, a.ret), (DeviceCall.close_device, a2.ret)] := by
  have hb : breaks_out s a (main_step X cfg s a) := by
    rcases hpc with h | h | h
    · unfold breaks_out
      simp [main_step, h, lib_call, hret, hnd, call_at, printf]
    · unfold breaks_out
      simp [main_step, h, lib_call, hret, hnd, call_at, printf]
    · exact main_step_checkbrk X cfg s a h hret
  exact ⟨hb.2.2.2, run_after_break X cfg s a a2 hs rest hh hb⟩

/-- Witness of `main_failure_without_daemon`: `plhm_open_device` fails, a stop
message arrives, then `main` closes the device and returns 0. -/
theorem main_failure_without_daemon_witness :
    MainState.before_open.pc = Pc.open_device
      ∧ (run Platform.unresolved Config.hex MainState.before_open
          ([Input.device (Answer.ret_only 1)] ++ [Input.stop]
            ++ [Input.device (Answer.ret_only 0)] ++ [])).exit_status = some 0 :=
  ⟨rfl, (main_failure_without_daemon Platform.unresolved Config.hex MainState.before_open
    (Answer.ret_only 1) (Answer.ret_only 0) [Input.stop] [] rfl (Or.inr (Or.inl rfl))
    (by decide) (by decide)).2.2.1⟩

/-- C7, as stated, fails. With `-D`, a run of `main` in which the flush request
(the first `plhm_data_request`) fails does not start another cycle: `main`
leaves the loop, calls `plhm_close_device` and returns 0. -/
theorem main_configuration_failure_with_daemon_returns :
    Config.hex_daemon.daemon_flag = true
      ∧ (run Platform.unresolved Config.hex_daemon (main_init World.logging)
          [Input.device (Answer.ret_only 0), Input.device (Answer.ret_only 0),
           Input.device (Answer.ret_only 0), Input.device (Answer.ret_only 0),
           Input.device (Answer.ret_only 1), Input.device (Answer.ret_only 0)]).pc
          = Pc.returned
      ∧ (run Platform.unresolved Config.hex_daemon (main_init World.logging)
          [Input.device (Answer.ret_only 0), Input.device (Answer.ret_only 0),
           Input.device (Answer.ret_only 0), Input.device (Answer.ret_only 0),
           Input.device (Answer.ret_only 1), Input.device (Answer.ret_only 0)]).trace
          = [(DeviceCall.find_device, 0), (DeviceCall.open_device, 0),
             (DeviceCall.data_request, 1), (DeviceCall.close_device, 0)]
      ∧ (run Platform.unresolved Config.hex_daemon (main_init World.logging)
          [Input.device (Answer.ret_only 0), Input.device (Answer.ret_only 0),
           Input.device (Answer.ret_only 0), Input.device (Answer.ret_only 0),
           Input.device (Answer.ret_only 1), Input.device (Answer.ret_only 0)]).exit_status
          = some 0 := by
  exact ⟨rfl, rfl, rfl, rfl⟩

/-- C7, amended. With `-D`, for every step of the configuration sequence (flush
request, text mode, get version, read bits, get stations, set hemisphere, set
units, set rate, set data fields, binary mode, continuous request), a failure
of that step leaves the acquisition loop: the rest of the cycle is skipped,
`plhm_close_device` is called once, after the loop, and `main` returns 0; no
further cycle is started, whichever handlers run in between and whatever
comes after. -/
theorem main_configuration_failure_with_daemon (X : Platform) (cfg : Config) (s : MainState)
    (a a2 : Answer) (hs rest : List Input)
    (hd : cfg.daemon_flag = true)
    (hpc : is_configuration_step s.pc = true)
    (hret : a.ret ≠ 0)
    (hh : ∀ i ∈ hs, Input.is_handler i = true) :
    (main_step X cfg s a).pc = Pc.final_close
      ∧ (run X cfg s ([Input.device a] ++ hs ++ [Input.device a2] ++ rest)).pc = Pc.returned
      ∧ (run X cfg s ([Input.device a] ++ hs ++ [Input.device a2] ++ rest)).exit_status
          = some 0
      ∧ ∃ c, call_at s.pc = some c
          ∧ (run X cfg s ([Input.device a] ++ hs ++ [Input.device a2] ++ rest)).trace
              = s.trace ++ [(c, a.ret), (DeviceCall.close_device, a2.ret)] := by
  have hb := main_step_checkbrk X cfg s a hpc hret
  exact ⟨hb.1, run_after_break X cfg s a a2 hs rest hh hb⟩

/-- Witness of `main_configuration_failure_with_daemon`: with `-D`,
`plhm_get_stations` fails, and `main` has returned after the next step. -/
theorem main_configuration_failure_with_daemon_witness :
    MainState.before_get_stations.pc = Pc.get_stations
      ∧ (run Platform.unresolved Config.hex_daemon MainState.before_get_stations
          ([Input.device (Answer.ret_only 1)] ++ []
            ++ [Input.device (Answer.ret_only 0)]
            ++ [Input.device (Answer.ret_only 0)])).pc = Pc.returned :=
  ⟨rfl, (main_configuration_failure_with_daemon Platform.unresolved Config.hex_daemon
    MainState.before_get_stations
    (Answer.ret_only 1) (Answer.ret_only 0) [] [Input.device (Answer.ret_only 0)] rfl rfl
    (by decide) (by simp)).2.1⟩

/-! ### Command channel: the destination of a start (C8) -/

/-- C8, as stated, fails. For the sender `::ffff:10.0.0.1` and port 9000,
start(port) builds `osc.udp://10.0.0.1:9000` while start(host, port) with the
host equal to the sender's builds `osc.udp://::ffff:10.0.0.1:9000`. -/
theorem start_url_sender_differs :
    start_url (CmdArgs.port 9000) "::ffff:10.0.0.1".toList = "osc.udp://10.0.0.1:9000".toList
      ∧ start_url (CmdArgs.host_port "::ffff:10.0.0.1".toList 9000) "::ffff:10.0.0.1".toList
          = "osc.udp://::ffff:10.0.0.1:9000".toList
      ∧ start_url (CmdArgs.port 9000) "::ffff:10.0.0.1".toList
          ≠ start_url (CmdArgs.host_port "::ffff:10.0.0.1".toList 9000) "::ffff:10.0.0.1".toList := by
  decide

/-- C8, amended. For every sender host h that does not begin with two colons
and every port p, the URL built by `start_handler` for start(p) received from
h is the URL built for start(h, p), namely `osc.udp://h:p`, and the two
commands leave the same world. -/
theorem start_url_sender_eq_explicit (X : Platform) (w : World) (h : CString) (p : Int)
    (hcolons : ¬ ("::".toList <+: h)) :
    start_url (CmdArgs.port p) h = "osc.udp://".toList ++ h ++ ":".toList ++ fmt_d p
      ∧ start_url (CmdArgs.host_port h p) h = "osc.udp://".toList ++ h ++ ":".toList ++ fmt_d p
      ∧ start_handler X w (CmdArgs.port p) h = start_handler X w (CmdArgs.host_port h p) h := by
  have hhost : start_host_port (CmdArgs.port p) h = (h, p) := by
    simp only [start_host_port]
    rw [if_neg]
    intro hc
    apply hcolons
    match h, hc with
    | [], hc => simp at hc
    | [a], hc => simp at hc
    | a :: b :: t, hc =>
      simp at hc
      obtain ⟨ha, hb⟩ := hc
      subst ha hb
      exact ⟨t, rfl⟩
  have hurl : start_url (CmdArgs.port p) h = start_url (CmdArgs.host_port h p) h := by
    unfold start_url
    rw [hhost]
    rfl
  refine ⟨?_, ?_, ?_⟩
  · unfold start_url
    rw [hhost]
  · rfl
  · simp only [start_handler, hurl]

/-- Witness of `start_url_sender_eq_explicit`: the sender `10.0.0.1`. -/
theorem start_url_sender_eq_explicit_witness :
    start_url (CmdArgs.port 9000) "10.0.0.1".toList = "osc.udp://10.0.0.1:9000".toList :=
  (start_url_sender_eq_explicit Platform.unresolved World.idle "10.0.0.1".toList 9000
    (by decide)).1

/-! ### Device session state machine: sessions are closed (C9) -/

/-- The scan of a trace extended by one call. -/
theorem session_scan_snoc (trace : List (DeviceCall × Int)) (ev : DeviceCall × Int) :
    session_scan (trace ++ [ev]) = session_step (session_scan trace) ev := by
  simp [session_scan, List.foldl_append]

/-- A step of `main` keeps the session invariant. -/
theorem main_step_session_inv (X : Platform) (cfg : Config) (s : MainState) (a : Answer)
    (h : session_inv s) : session_inv (main_step X cfg s a) := by
  obtain ⟨h2, h1⟩ := h
  unfold session_inv
  cases hpc : s.pc <;> simp only [hpc, idle_pc] at h1 <;>
    simp only [main_step, hpc, lib_call, CHECKBRK] <;>
    (repeat' split) <;>
    simp_all [session_scan_snoc, session_step, idle_pc]

/-- An event of the process keeps the session invariant. -/
theorem step_session_inv (X : Platform) (cfg : Config) (s : MainState) (i : Input)
    (h : session_inv s) : session_inv (step X cfg s i) := by
  cases i with
  | device a => exact main_step_session_inv X cfg s a h
  | start args source => exact h
  | stop => exact h
  | status args source => exact h
  | sigint => exact h

/-- A run keeps the session invariant. -/
theorem run_session_inv (X : Platform) (cfg : Config) (s : MainState) (inputs : List Input)
    (h : session_inv s) : session_inv (run X cfg s inputs) := by
  induction inputs generalizing s with
  | nil => exact h
  | cons i rest ih => exact ih (step X cfg s i) (step_session_inv X cfg s i h)

/-- C9. For every run of `main` from the head of its acquisition loop, with
any outcomes of the device calls and any handlers in between:
`plhm_open_device` is never called while a session is open (every successful
`plhm_open_device` has been followed by a `plhm_close_device` before the next
`plhm_open_device`), so at most one session is open at any time; and when
`main` has returned no session is open, also after a failed configuration,
streaming or draining step. -/
theorem main_closes_every_session (X : Platform) (cfg : Config) (w : World)
    (inputs : List Input) :
    (session_scan (run X cfg (main_init w) inputs).trace).2 = true
      ∧ ((run X cfg (main_init w) inputs).pc = Pc.open_device →
          (session_scan (run X cfg (main_init w) inputs).trace).1 = false)
      ∧ ((run X cfg (main_init w) inputs).pc = Pc.returned →
          (session_scan (run X cfg (main_init w) inputs).trace).1 = false) := by
  have h := run_session_inv X cfg (main_init w) inputs
    ⟨rfl, fun _ => rfl⟩
  refine ⟨h.1, ?_, ?_⟩
  · intro hpc
    exact h.2 (by rw [hpc]; rfl)
  · intro hpc
    exact h.2 (by rw [hpc]; rfl)

/-- An instance of `main_closes_every_session`: the device is opened, the
flush request fails, and the session is closed when `main` has returned. -/
theorem main_closes_every_session_witness :
    (session_scan (run Platform.unresolved Config.hex (main_init World.logging)
        [Input.device (Answer.ret_only 0), Input.device (Answer.ret_only 0),
         Input.device (Answer.ret_only 0), Input.device (Answer.ret_only 0),
         Input.device (Answer.ret_only 1), Input.device (Answer.ret_only 0)]).trace).1
      = false :=
  (main_closes_every_session Platform.unresolved Config.hex World.logging
    [Input.device (Answer.ret_only 0), Input.device (Answer.ret_only 0),
     Input.device (Answer.ret_only 0), Input.device (Answer.ret_only 0),
     Input.device (Answer.ret_only 1), Input.device (Answer.ret_only 0)]).2.2 rfl

/-! ### Fan-out engine: a failing read (C10) -/

/-- The body of the station loop sets `data_good` and makes no device call. -/
theorem station_body_frame (X : Platform) (cfg : Config) (w : World) (rec : plhm_record_t) :
    (station_body X cfg w rec).data_good = true
      ∧ (station_body X cfg w rec).calls = w.calls := by
  have h1 : (log_record X cfg { w with data_good := true } rec).data_good = true :=
    (log_record_frame X cfg _ rec).2.2.1
  have h2 : (log_record X cfg { w with data_good := true } rec).calls = w.calls :=
    (log_record_frame X cfg _ rec).2.2.2.1
  simp only [station_body]
  generalize log_record X cfg { w with data_good := true } rec = w2 at h1 h2 ⊢
  cases w2.addr with
  | none => exact ⟨h1, h2⟩
  | some a =>
    simp only [send_record_frame]
    exact ⟨h1, h2⟩

/-- Distributing records makes one read per record. -/
theorem distribute_all_calls (X : Platform) (cfg : Config) (recs : List plhm_record_t)
    (w : World) :
    (distribute_all X cfg recs w).calls
      = w.calls ++ List.replicate recs.length DeviceCall.read_data_record := by
  induction recs generalizing w with
  | nil => simp [distribute_all]
  | cons r rs ih =>
    have h := ih (station_body X cfg (device_call w DeviceCall.read_data_record) r)
    simp only [distribute_all, List.foldl_cons] at h ⊢
    rw [h, (station_body_frame X cfg _ r).2]
    simp [device_call, List.replicate_succ]

/-- After at least one record has been distributed `data_good` is set. -/
theorem distribute_all_data_good (X : Platform) (cfg : Config) (recs : List plhm_record_t)
    (w : World) (hne : recs ≠ []) :
    (distribute_all X cfg recs w).data_good = true := by
  induction recs generalizing w with
  | nil => exact absurd rfl hne
  | cons r rs ih =>
    cases rs with
    | nil => exact (station_body_frame X cfg _ r).1
    | cons r2 rs2 =>
      have h := ih (station_body X cfg (device_call w DeviceCall.read_data_record) r)
        (by simp)
      simpa only [distribute_all, List.foldl_cons] using h

/-- The station loop when the reads for `recs` succeed and the next one
fails, with stations left. -/
theorem station_loop_fail (X : Platform) (cfg : Config) (reads : Nat → Option plhm_record_t)
    (recs : List plhm_record_t) (extra s : Nat) (w : World)
    (hok : ∀ i, i < recs.length → reads (s + i) = recs[i]?)
    (hfail : reads (s + recs.length) = none) :
    station_loop X cfg reads (recs.length + 1 + extra) s w
      = (1, { device_call (distribute_all X cfg recs w) DeviceCall.read_data_record
              with data_good := false }) := by
  induction recs generalizing s w with
  | nil =>
    have h0 : reads s = none := by simpa using hfail
    simp only [List.length_nil, Nat.zero_add, Nat.add_comm 1 extra, station_loop, h0,
      distribute_all, List.foldl_nil]
  | cons r rs ih =>
    have h0 : reads s = some r := by simpa using hok 0 (by simp)
    have hok2 : ∀ i, i < rs.length → reads (s + 1 + i) = rs[i]? := by
      intro i hi
      have := hok (i + 1) (by simp; omega)
      simpa [Nat.add_assoc, Nat.add_comm 1 i] using this
    have hfail2 : reads (s + 1 + rs.length) = none := by
      have := hfail
      simpa [Nat.add_assoc, Nat.add_comm 1 rs.length] using this
    have hlen : (r :: rs).length + 1 + extra = (rs.length + 1 + extra) + 1 := by
      simp; omega
    rw [hlen, station_loop]
    simp only [h0]
    rw [ih (s + 1) _ hok2 hfail2]
    simp only [distribute_all, List.foldl_cons]

/-- The station loop when all its reads succeed. -/
theorem station_loop_ok (X : Platform) (cfg : Config) (reads : Nat → Option plhm_record_t)
    (recs : List plhm_record_t) (s : Nat) (w : World)
    (hok : ∀ i, i < recs.length → reads (s + i) = recs[i]?) :
    station_loop X cfg reads recs.length s w = (0, distribute_all X cfg recs w) := by
  induction recs generalizing s w with
  | nil => simp only [List.length_nil, station_loop, distribute_all, List.foldl_nil]
  | cons r rs ih =>
    have h0 : reads s = some r := by simpa using hok 0 (by simp)
    have hok2 : ∀ i, i < rs.length → reads (s + 1 + i) = rs[i]? := by
      intro i hi
      have := hok (i + 1) (by simp; omega)
      simpa [Nat.add_assoc, Nat.add_comm 1 i] using this
    rw [List.length_cons, station_loop]
    simp only [h0]
    rw [ih (s + 1) _ hok2]
    simp only [distribute_all, List.foldl_cons]

/-- The head of `read_stations_and_send` leaves `pol` alone. -/
theorem before_station_loop_pol (w : World) (poll : Bool) (now : timeval) :
    (before_station_loop w poll now).pol = w.pol := by
  unfold before_station_loop frequency_monitor device_call
  cases poll <;> simp <;> split <;> rfl

/-- The function `read_stations_and_send` is its head followed by the
station loop. -/
theorem read_stations_and_send_eq (X : Platform) (cfg : Config) (w : World) (poll : Bool)
    (now : timeval) (reads : Nat → Option plhm_record_t) :
    read_stations_and_send X cfg w poll now reads
      = station_loop X cfg reads w.pol.stations 0 (before_station_loop w poll now) := by
  rw [← before_station_loop_pol w poll now]
  rfl

/-- C10. For every station count and every sequence of read outcomes: if the
reads for the records `recs` succeed and the next read, for a station index k
below the station count, fails, `read_stations_and_send` returns 1 with
`data_good` false, has made exactly k + 1 reads, and has distributed exactly
the k records before the failure and nothing after it; if no read fails it
returns 0, has distributed every record and, when there is at least one
station, leaves `data_good` true. -/
theorem read_stations_and_send_first_failure (X : Platform) (cfg : Config) (w : World)
    (poll : Bool) (now : timeval) (reads : Nat → Option plhm_record_t)
    (recs : List plhm_record_t)
    (hok : ∀ i, i < recs.length → reads i = recs[i]?) :
    (recs.length < w.pol.stations → reads recs.length = none →
        read_stations_and_send X cfg w poll now reads
            = (1, { device_call (distribute_all X cfg recs (before_station_loop w poll now))
                      DeviceCall.read_data_record with data_good := false })
          ∧ (read_stations_and_send X cfg w poll now reads).2.data_good = false
          ∧ (read_stations_and_send X cfg w poll now reads).2.calls
              = (before_station_loop w poll now).calls
                  ++ List.replicate (recs.length + 1) DeviceCall.read_data_record)
      ∧ (recs.length = w.pol.stations →
          read_stations_and_send X cfg w poll now reads
              = (0, distribute_all X cfg recs (before_station_loop w poll now))
            ∧ (0 < w.pol.stations →
                (read_stations_and_send X cfg w poll now reads).2.data_good = true)) := by
  have hok0 : ∀ i, i < recs.length → reads (0 + i) = recs[i]? := by
    intro i hi
    simpa using hok i hi
  constructor
  · intro hlt hfail
    have hn : w.pol.stations = recs.length + 1 + (w.pol.stations - recs.length - 1) := by
      omega
    have hres := station_loop_fail X cfg reads recs (w.pol.stations - recs.length - 1) 0
      (before_station_loop w poll now) hok0 (by simpa using hfail)
    rw [← hn] at hres
    rw [read_stations_and_send_eq, hres]
    refine ⟨rfl, rfl, ?_⟩
    simp only [device_call, distribute_all_calls, List.replicate_succ', List.append_assoc]
  · intro hlen
    have hres := station_loop_ok X cfg reads recs 0 (before_station_loop w poll now) hok0
    rw [hlen] at hres
    rw [read_stations_and_send_eq, hres]
    refine ⟨rfl, ?_⟩
    intro hpos
    apply distribute_all_data_good
    intro hnil
    rw [hnil] at hlen
    simp at hlen
    omega

/-- Witness of `read_stations_and_send_first_failure`: three stations, the
second read fails, and the function returns 1. -/
theorem read_stations_and_send_first_failure_witness :
    (read_stations_and_send Platform.unresolved Config.hex
        { World.logging with pol := ⟨true, 3, 1⟩ } false ⟨0, 0⟩
        (fun i => if i = 0 then some rec_example else none)).1 = 1 :=
  congrArg Prod.fst
    ((read_stations_and_send_first_failure Platform.unresolved Config.hex
      { World.logging with pol := ⟨true, 3, 1⟩ } false ⟨0, 0⟩
      (fun i => if i = 0 then some rec_example else none) [rec_example]
      (by intro i hi; simp at hi; subst hi; rfl)).1 (by decide) rfl).1

/-! ### Fan-out engine: the frequency monitor (C11) -/

/-- The macro `LOG` leaves the frequency monitor's variables alone. -/
theorem LOG_monitor (w : World) (text : CString) :
    (LOG w text).c = w.c ∧ (LOG w text).prev = w.prev ∧ (LOG w text).stderr = w.stderr := by
  unfold LOG
  cases w.outfile <;> exact ⟨rfl, rfl, rfl⟩

/-- The function `log_float` leaves the frequency monitor's variables alone. -/
theorem log_float_monitor (X : Platform) (cfg : Config) (w : World) (f : CFloat) :
    (log_float X cfg w f).c = w.c ∧ (log_float X cfg w f).prev = w.prev
      ∧ (log_float X cfg w f).stderr = w.stderr := by
  unfold log_float
  split <;> exact LOG_monitor _ _

/-- The log statements for a record leave the frequency monitor's variables
alone. -/
theorem log_record_monitor (X : Platform) (cfg : Config) (w : World) (rec : plhm_record_t) :
    (log_record X cfg w rec).c = w.c ∧ (log_record X cfg w rec).prev = w.prev
      ∧ (log_record X cfg w rec).stderr = w.stderr := by
  simp only [log_record]
  split_ifs <;> simp only [LOG_monitor, log_float_monitor, and_self]

/-- The liblo block leaves the frequency monitor's variables alone. -/
theorem send_record_monitor (X : Platform) (w : World) (a : lo_address)
    (rec : plhm_record_t) :
    (send_record X w a rec).c = w.c ∧ (send_record X w a rec).prev = w.prev
      ∧ (send_record X w a rec).stderr = w.stderr := by
  simp only [send_record, lo_send]
  split_ifs <;> exact ⟨rfl, rfl, rfl⟩

/-- The body of the station loop leaves the frequency monitor's variables
alone. -/
theorem station_body_monitor (X : Platform) (cfg : Config) (w : World)
    (rec : plhm_record_t) :
    (station_body X cfg w rec).c = w.c ∧ (station_body X cfg w rec).prev = w.prev
      ∧ (station_body X cfg w rec).stderr = w.stderr := by
  have h := log_record_monitor X cfg { w with data_good := true } rec
  have h1 : (log_record X cfg { w with data_good := true } rec).c = w.c := h.1
  have h2 : (log_record X cfg { w with data_good := true } rec).prev = w.prev := h.2.1
  have h3 : (log_record X cfg { w with data_good := true } rec).stderr = w.stderr := h.2.2
  simp only [station_body]
  generalize log_record X cfg { w with data_good := true } rec = w2 at h1 h2 h3 ⊢
  cases w2.addr with
  | none => exact ⟨h1, h2, h3⟩
  | some a =>
    simp only [send_record_monitor]
    exact ⟨h1, h2, h3⟩

/-- The station loop leaves the frequency monitor's variables alone. -/
theorem station_loop_monitor (X : Platform) (cfg : Config)
    (reads : Nat → Option plhm_record_t) (todo s : Nat) (w : World) :
    (station_loop X cfg reads todo s w).2.c = w.c
      ∧ (station_loop X cfg reads todo s w).2.prev = w.prev
      ∧ (station_loop X cfg reads todo s w).2.stderr = w.stderr := by
  induction todo generalizing s w with
  | zero => exact ⟨rfl, rfl, rfl⟩
  | succ n ih =>
    rw [station_loop]
    cases hr : reads s with
    | none => exact ⟨rfl, rfl, rfl⟩
    | some rec =>
      simp only []
      have h := ih (s + 1) (station_body X cfg (device_call w DeviceCall.read_data_record) rec)
      have hb := station_body_monitor X cfg (device_call w DeviceCall.read_data_record) rec
      rw [h.1, h.2.1, h.2.2, hb.1, hb.2.1, hb.2.2]
      exact ⟨rfl, rfl, rfl⟩

/-- In one call of `read_stations_and_send` only the frequency monitor at its
head touches the counter, the checkpoint and stderr. -/
theorem pass_monitor (X : Platform) (cfg : Config) (w : World) (i : PassInput) :
    (pass X cfg w i).c = (frequency_monitor w i.now).c
      ∧ (pass X cfg w i).prev = (frequency_monitor w i.now).prev
      ∧ (pass X cfg w i).stderr = (frequency_monitor w i.now).stderr := by
  unfold pass
  rw [read_stations_and_send_eq]
  have h := station_loop_monitor X cfg i.reads w.pol.stations 0
    (before_station_loop w i.poll i.now)
  rw [h.1, h.2.1, h.2.2]
  unfold before_station_loop device_call
  cases i.poll <;> exact ⟨rfl, rfl, rfl⟩

/-- One call of `read_stations_and_send` with the counter at `k` below 32: the
monitor fires iff `k` is 31. -/
theorem pass_counter (X : Platform) (cfg : Config) (w : World) (i : PassInput) (k : Nat)
    (hk : k < 32) (hc : w.c = (k : Int)) :
    (k = 31 →
        (pass X cfg w i).c = 0 ∧ (pass X cfg w i).prev = i.now
          ∧ (pass X cfg w i).stderr = w.stderr ++ [(timeval_subtract i.now w.prev).2])
      ∧ (k ≠ 31 →
        (pass X cfg w i).c = ((k + 1 : Nat) : Int) ∧ (pass X cfg w i).prev = w.prev
          ∧ (pass X cfg w i).stderr = w.stderr) := by
  have h := pass_monitor X cfg w i
  rw [h.1, h.2.1, h.2.2]
  unfold frequency_monitor
  constructor
  · intro h31
    have hgt : w.c > 30 := by rw [hc, h31]; decide
    rw [if_pos hgt]
    exact ⟨rfl, rfl, rfl⟩
  · intro hne
    have hgt : ¬ (w.c > 30) := by rw [hc]; omega
    rw [if_neg hgt]
    refine ⟨?_, rfl, rfl⟩
    show w.c + 1 = _
    rw [hc]
    push_cast
    rfl

/-- Consecutive calls of `read_stations_and_send` from a counter at `k` below
32: the counter and the number of lines on stderr. -/
theorem passes_counter (X : Platform) (cfg : Config) (ins : List PassInput) (w : World)
    (k : Nat) (hk : k < 32) (hc : w.c = (k : Int)) :
    (passes X cfg w ins).c = (((k + ins.length) % 32 : Nat) : Int)
      ∧ (passes X cfg w ins).stderr.length = w.stderr.length + (k + ins.length) / 32 := by
  induction ins generalizing w k with
  | nil =>
    simp only [passes, List.foldl_nil, List.length_nil, Nat.add_zero]
    rw [Nat.mod_eq_of_lt hk, Nat.div_eq_of_lt hk]
    exact ⟨hc, rfl⟩
  | cons i rest ih =>
    have hp := pass_counter X cfg w i k hk hc
    by_cases h31 : k = 31
    · obtain ⟨h1, _, h3⟩ := hp.1 h31
      have hlen : (pass X cfg w i).stderr.length = w.stderr.length + 1 := by
        rw [h3]
        simp
      have hrest := ih (pass X cfg w i) 0 (by decide) (by rw [h1]; rfl)
      have hfold : passes X cfg w (i :: rest) = passes X cfg (pass X cfg w i) rest := rfl
      rw [hfold, hrest.1, hrest.2, hlen, List.length_cons]
      subst h31
      constructor
      · congr 1
        omega
      · omega
    · obtain ⟨h1, _, h3⟩ := hp.2 h31
      have hlen : (pass X cfg w i).stderr.length = w.stderr.length := by rw [h3]
      have hrest := ih (pass X cfg w i) (k + 1) (by omega) h1
      have hfold : passes X cfg w (i :: rest) = passes X cfg (pass X cfg w i) rest := rfl
      rw [hfold, hrest.1, hrest.2, hlen, List.length_cons]
      constructor
      · congr 1
        omega
      · omega

/-- The frequency monitor over consecutive calls of `read_stations_and_send`,
counted from 1 with the counter starting at 0: after n calls the counter is
n mod 32 and n / 32 lines have been written; call number n + 1 writes a line,
moves the checkpoint and resets the counter iff n + 1 is a multiple of 32, and
otherwise writes nothing, leaves the checkpoint and adds 1 to the counter. -/
theorem monitor_fires_every_32nd_pass (X : Platform) (cfg : Config) (w : World)
    (ins : List PassInput) (i : PassInput) :
    (passes X cfg { w with c := 0 } ins).c = ((ins.length % 32 : Nat) : Int)
      ∧ (passes X cfg { w with c := 0 } ins).stderr.length
          = w.stderr.length + ins.length / 32
      ∧ ((ins.length + 1) % 32 = 0 →
          (passes X cfg { w with c := 0 } (ins ++ [i])).c = 0
            ∧ (passes X cfg { w with c := 0 } (ins ++ [i])).prev = i.now
            ∧ (passes X cfg { w with c := 0 } (ins ++ [i])).stderr
                = (passes X cfg { w with c := 0 } ins).stderr
                    ++ [(timeval_subtract i.now (passes X cfg { w with c := 0 } ins).prev).2])
      ∧ ((ins.length + 1) % 32 ≠ 0 →
          (passes X cfg { w with c := 0 } (ins ++ [i])).c
              = (passes X cfg { w with c := 0 } ins).c + 1
            ∧ (passes X cfg { w with c := 0 } (ins ++ [i])).prev
                = (passes X cfg { w with c := 0 } ins).prev
            ∧ (passes X cfg { w with c := 0 } (ins ++ [i])).stderr
                = (passes X cfg { w with c := 0 } ins).stderr) := by
  have h := passes_counter X cfg ins { w with c := 0 } 0 (by decide) rfl
  rw [Nat.zero_add] at h
  have hsnoc : passes X cfg { w with c := 0 } (ins ++ [i])
      = pass X cfg (passes X cfg { w with c := 0 } ins) i := by
    simp [passes, List.foldl_append]
  have hp := pass_counter X cfg (passes X cfg { w with c := 0 } ins) i (ins.length % 32)
    (Nat.mod_lt _ (by decide)) h.1
  refine ⟨h.1, h.2, ?_, ?_⟩
  · intro hm
    rw [hsnoc]
    exact hp.1 (by omega)
  · intro hm
    rw [hsnoc]
    have := hp.2 (by omega)
    refine ⟨?_, this.2.1, this.2.2⟩
    rw [this.1, h.1]
    push_cast
    rfl

set_option maxRecDepth 20000 in
/-- C11, the code at the failing input. With the counter at 0 and one call of
`read_stations_and_send` a second, the 30th call has written nothing to
stderr, has left the checkpoint where it was and the counter at 30, and so has
the 31st; the first line is written by the 32nd call, which moves the
checkpoint and resets the counter, and the elapsed time it divides 30 by is
that of 32 calls. -/
theorem monitor_silent_on_pass_30 :
    (passes Platform.unresolved Config.hex World.idle (PassInput.one_a_second 30)).stderr = []
      ∧ (passes Platform.unresolved Config.hex World.idle (PassInput.one_a_second 30)).prev
          = World.idle.prev
      ∧ (passes Platform.unresolved Config.hex World.idle (PassInput.one_a_second 30)).c = 30
      ∧ (passes Platform.unresolved Config.hex World.idle (PassInput.one_a_second 31)).stderr = []
      ∧ (passes Platform.unresolved Config.hex World.idle (PassInput.one_a_second 31)).c = 31
      ∧ (passes Platform.unresolved Config.hex World.idle (PassInput.one_a_second 32)).stderr
          = [⟨32, 0⟩]
      ∧ (passes Platform.unresolved Config.hex World.idle (PassInput.one_a_second 32)).prev
          = ⟨32, 0⟩
      ∧ (passes Platform.unresolved Config.hex World.idle (PassInput.one_a_second 32)).c = 0 :=
  ⟨rfl, rfl, rfl, rfl, rfl, rfl, rfl, rfl⟩

end Plhm
